import Mathlib

/-!
Shallow embedding of the RuNeVis dimensional-reduction engine.

Source files embedded:
- `src/statistics/operations.rs` (`StatOperation`, `reduce_along_axis`)
- `src/statistics/parallel.rs` (`parallel_mean_axis`, `parallel_sum_axis`,
  `parallel_min_axis`, `parallel_max_axis`)
- `src/statistics/netcdf.rs` (`compute_stat_over_dimension`)
- `src/errors.rs` (`RuNeVisError`)
- `src/parallel.rs` (`ParallelConfig::setup_global_pool`)
- `src/netcdf_io.rs` (`extract_slice`)

Floating-point values (`f32`/`f64`) are modelled exactly by the inductive
`FloatV`: a finite value carries its exact rational value, and NaN, +Inf
and -Inf are separate constructors.  IEEE rounding of `+` and `/` and the
`f64 -> f32` narrowing are not modelled (they are the identity on the
carried rational); every concrete computation appearing in the theorems
below stays within values on which the real `f32`/`f64` operations are
exact, so no rounding step is ever exercised.
-/

namespace RuNeVis

/-- Exact model of an IEEE float value (used for both `f32` and `f64`). -/
inductive FloatV where
  | finite (q : ℚ)
  | nan
  | inf
  | neginf
  deriving DecidableEq, Repr

namespace FloatV

/-- Model of Rust `f32::is_finite` / `f64::is_finite`. -/
def isFinite : FloatV → Bool
  | finite _ => true
  | _ => false

/-- Model of IEEE addition.  Only the finite+finite case is ever reached by
the embedded code (additions are guarded by `is_finite`); it is exact
rational addition (rounding not modelled, see the file header). -/
def add : FloatV → FloatV → FloatV
  | nan, _ => nan
  | _, nan => nan
  | inf, neginf => nan
  | neginf, inf => nan
  | inf, _ => inf
  | _, inf => inf
  | neginf, _ => neginf
  | _, neginf => neginf
  | finite a, finite b => finite (a + b)

/-- Model of Rust `f32::min`: if one argument is NaN the other is returned. -/
def fmin : FloatV → FloatV → FloatV
  | nan, y => y
  | x, nan => x
  | neginf, _ => neginf
  | _, neginf => neginf
  | inf, y => y
  | x, inf => x
  | finite a, finite b => finite (min a b)

/-- Model of Rust `f32::max`: if one argument is NaN the other is returned. -/
def fmax : FloatV → FloatV → FloatV
  | nan, y => y
  | x, nan => x
  | inf, _ => inf
  | _, inf => inf
  | neginf, y => y
  | x, neginf => x
  | finite a, finite b => finite (max a b)

/-- Model of the IEEE comparison `x == f32::INFINITY`.  IEEE `==` against
`+Inf` holds exactly when `x` is `+Inf` (it is false for NaN, so structural
matching agrees with IEEE here). -/
def isInf : FloatV → Bool
  | inf => true
  | _ => false

/-- Model of the IEEE comparison `x == f32::NEG_INFINITY`. -/
def isNegInf : FloatV → Bool
  | neginf => true
  | _ => false

/-- Rational value carried by a finite float; only applied under an
`is_finite` guard in the embedded code, so the junk value for the
non-finite constructors is never used. -/
def toQ : FloatV → ℚ
  | finite q => q
  | _ => 0

end FloatV

/-- Model of Rust `f64::from(x: f32)` (exact widening). -/
def f64FromF32 (x : FloatV) : FloatV := x

/-- Model of `ndarray::ArrayD<f32>` (and `ArrayD<f64>`): a shape together
with the flat row-major data buffer. -/
structure ArrayD where
  shape : List Nat
  data : List FloatV
  deriving DecidableEq, Repr

/-- The `ndarray` invariant: the flat buffer length is the product of the
shape (always true of arrays built by the library). -/
abbrev ArrayD.wf (a : ArrayD) : Prop := a.data.length = a.shape.prod

/-- Embedding of `RuNeVisError` from `src/errors.rs`.  Payloads that wrap
foreign error types (`netcdf::Error`, `std::io::Error`,
`ndarray::ShapeError`) are modelled by their display strings. -/
inductive RuNeVisError where
  | NetCDFError (msg : String)
  | ZarrError (msg : String)
  | StatisticsError (msg : String)
  | IoError (msg : String)
  | VariableNotFound (var : String)
  | ArrayNotFound (array : String)
  | DimensionNotFound (var : String) (dim : String)
  | InvalidSlice (message : String)
  | ThreadPoolError (msg : String)
  | ArrayError (msg : String)
  | AsyncError (msg : String)
  | Generic (msg : String)
  deriving DecidableEq, Repr

/-- Variant name of an error, as Rust's derived `Debug` formatting prints
it; this is the error's "kind". -/
def RuNeVisError.kindName : RuNeVisError → String
  | .NetCDFError _ => "NetCDFError"
  | .ZarrError _ => "ZarrError"
  | .StatisticsError _ => "StatisticsError"
  | .IoError _ => "IoError"
  | .VariableNotFound _ => "VariableNotFound"
  | .ArrayNotFound _ => "ArrayNotFound"
  | .DimensionNotFound _ _ => "DimensionNotFound"
  | .InvalidSlice _ => "InvalidSlice"
  | .ThreadPoolError _ => "ThreadPoolError"
  | .ArrayError _ => "ArrayError"
  | .AsyncError _ => "AsyncError"
  | .Generic _ => "Generic"

/-- Row-major decoding of a flat index into per-axis coordinates: the
digit for an axis is the quotient by the product of the later axis
lengths. -/
def decode : List Nat → Nat → List Nat
  | [], _ => []
  | _ :: rest, r => r / rest.prod :: decode rest (r % rest.prod)

/-- Row-major encoding of per-axis coordinates into a flat index. -/
def encode : List Nat → List Nat → Nat
  | _ :: ds, c :: cs => c * ds.prod + encode ds cs
  | _, _ => 0

/-- Model of `ndarray`'s checked multi-dimensional `get`: `Some` exactly
when the coordinate list has the array's rank and every coordinate is
within its axis length, in which case the row-major element is returned.
(For a well-formed array the flat index is then always in range; the
`getD` default is never returned.) -/
def ndGet (shape : List Nat) (data : List FloatV) (coords : List Nat) :
    Option FloatV :=
  if coords.length = shape.length ∧
      (coords.zip shape).all (fun p => decide (p.1 < p.2)) then
    data[encode shape coords]?
  else
    none

/-- The source element lying along reduced axis `axis` at lane position
`i` for flat output coordinate `j` (row-major semantics of the array).
For a well-formed array, a valid axis, `j` below the output size and `i`
below the axis length, the flat read is always in range and the `getD`
default is never returned. -/
def laneRead (shape : List Nat) (axis : Nat) (data : List FloatV)
    (j i : Nat) : FloatV :=
  (data[encode shape ((decode (shape.eraseIdx axis) j).insertIdx axis i)]?).getD
    FloatV.nan

/-- Model of `ndarray::ArrayBase::fold_axis` (external collaborator,
modelled from its documented semantics): the output has the source shape
with `axis` removed, and each output cell folds `f` over the lane of
source elements along `axis` at that output coordinate, in increasing
index order, starting from `init`. -/
def foldAxis (shape : List Nat) (axis : Nat) (data : List FloatV)
    (init : FloatV) (f : FloatV → FloatV → FloatV) : ArrayD :=
  let outShape := shape.eraseIdx axis
  let axisLen := shape.getD axis 0
  ⟨outShape,
    (List.range outShape.prod).map (fun j =>
      (List.range axisLen).foldl
        (fun acc i => f acc (laneRead shape axis data j i))
        init)⟩

/-- Model of `ndarray`'s elementwise `mapv` (shape preserved). -/
def ArrayD.mapv (a : ArrayD) (f : FloatV → FloatV) : ArrayD :=
  ⟨a.shape, a.data.map f⟩

/-- Model of `ArrayD::from_shape_vec`: succeeds iff the buffer length
matches the shape's element count, otherwise gives a shape error
(converted to `RuNeVisError::ArrayError` by the `?` operator via
`From<ndarray::ShapeError>`). -/
def from_shape_vec (shape : List Nat) (v : List FloatV) :
    Except RuNeVisError ArrayD :=
  if v.length = shape.prod then .ok ⟨shape, v⟩
  else .error (.ArrayError "incompatible shapes")

/-- Embedding of the coordinate-reconstruction loop of
`parallel_mean_axis` (`src/statistics/parallel.rs` lines 40-52): walk the
source dimensions in order; the reduced axis keeps coordinate 0, every
other dimension takes the next row-major digit of the flat output index
with respect to `newShape` (stride = product of the remaining `newShape`
entries), updating the remainder.  The Rust loop writes `coords[dim_idx]`
in increasing `dim_idx` order into a zero-initialised vector, which is
the list built here position by position. -/
def meanCoordsGo (axis : Nat) (newShape : List Nat) :
    List Nat → Nat → Nat → Nat → List Nat
  | [], _, _, _ => []
  | _ :: dims, dimIdx, remaining, coordIdx =>
    if dimIdx = axis then
      0 :: meanCoordsGo axis newShape dims (dimIdx + 1) remaining coordIdx
    else
      let stride := (newShape.drop (coordIdx + 1)).prod
      remaining / stride ::
        meanCoordsGo axis newShape dims (dimIdx + 1) (remaining % stride)
          (coordIdx + 1)

/-- Embedding of the accumulation loop of the per-output-cell closure of
`parallel_mean_axis` (`src/statistics/parallel.rs` lines 38-67):
reconstruct the coordinates, then walk the reduced axis accumulating an
`f64` sum and a count over the finite values only
(`data_f64_array.get` returning `None` is skipped, mirroring the
`if let Some` in the source). -/
def meanScan (data : ArrayD) (axis : Nat) (flatIdx : Nat) : ℚ × Nat :=
  let originalShape := data.shape
  let newShape := originalShape.eraseIdx axis
  let axisLen := originalShape.getD axis 0
  let dataF64 := data.data.map f64FromF32
  let coords := meanCoordsGo axis newShape originalShape 0 flatIdx 0
  (List.range axisLen).foldl
    (fun (p : ℚ × Nat) i =>
      match ndGet originalShape dataF64 (coords.set axis i) with
      | some v => if v.isFinite then (p.1 + v.toQ, p.2 + 1) else p
      | none => p)
    (0, 0)

/-- Final step of the per-output-cell closure of `parallel_mean_axis`:
`sum / count` narrowed to `f32` when the count is positive, NaN when
every value along the axis was skipped. -/
def meanCellF (data : ArrayD) (axis : Nat) (flatIdx : Nat) : FloatV :=
  let sc := meanScan data axis flatIdx
  if 0 < sc.2 then .finite (sc.1 / (sc.2 : ℚ)) else .nan

/-- Embedding of `parallel_mean_axis` (`src/statistics/parallel.rs` lines
17-82): widen the data to `f64` and rebuild the array (the first
`from_shape_vec` length check), compute every output cell of the shape
with `axis` removed, and rebuild the result array (the second
`from_shape_vec`).  The source indexes `original_shape[axis]` and calls
`new_shape.remove(axis)`, which panic for `axis >= rank`; callers reach
this function only through `reduce_along_axis`, which guards
`axis < rank` first, so the panic region is unreachable and the total
`getD`/`eraseIdx` used here agree with the source on every reachable
input. -/
def parallel_mean_axis (data : ArrayD) (axis : Nat) :
    Except RuNeVisError ArrayD :=
  let dataF64 := data.data.map f64FromF32
  if dataF64.length = data.shape.prod then
    let newShape := data.shape.eraseIdx axis
    from_shape_vec newShape
      ((List.range newShape.prod).map (meanCellF data axis))
  else .error (.ArrayError "incompatible shapes")

/-- Embedding of `parallel_sum_axis` (`src/statistics/parallel.rs` lines
89-101): `fold_axis` from `0.0`, adding only finite values. -/
def parallel_sum_axis (data : ArrayD) (axis : Nat) :
    Except RuNeVisError ArrayD :=
  .ok (foldAxis data.shape axis data.data (.finite 0)
    (fun acc x => if x.isFinite then acc.add x else acc))

/-- Embedding of `parallel_min_axis` (`src/statistics/parallel.rs` lines
108-122): `fold_axis` from `+Inf` with `f32::min` over finite values,
then map cells still equal to `+Inf` to NaN. -/
def parallel_min_axis (data : ArrayD) (axis : Nat) :
    Except RuNeVisError ArrayD :=
  let result := foldAxis data.shape axis data.data .inf
    (fun acc x => if x.isFinite then acc.fmin x else acc)
  .ok (result.mapv (fun x => if x.isInf then .nan else x))

/-- Embedding of `parallel_max_axis` (`src/statistics/parallel.rs` lines
129-143): `fold_axis` from `-Inf` with `f32::max` over finite values,
then map cells still equal to `-Inf` to NaN. -/
def parallel_max_axis (data : ArrayD) (axis : Nat) :
    Except RuNeVisError ArrayD :=
  let result := foldAxis data.shape axis data.data .neginf
    (fun acc x => if x.isFinite then acc.fmax x else acc)
  .ok (result.mapv (fun x => if x.isNegInf then .nan else x))

/-- Embedding of `StatOperation` from `src/statistics/operations.rs`. -/
inductive StatOperation where
  | Mean
  | Sum
  | Min
  | Max
  deriving DecidableEq, Repr

/-- Embedding of `StatOperation::as_str`. -/
def StatOperation.as_str : StatOperation → String
  | .Mean => "mean"
  | .Sum => "sum"
  | .Min => "minimum"
  | .Max => "maximum"

/-- Embedding of `<ArrayD<f32> as StatisticalReduction<f32>>::reduce_along_axis`
(`src/statistics/operations.rs` lines 96-110): reject an axis at or past
the rank with a `StatisticsError`, otherwise dispatch to the kernel. -/
def reduce_along_axis (a : ArrayD) (axis : Nat) (op : StatOperation) :
    Except RuNeVisError ArrayD :=
  if axis ≥ a.shape.length then
    .error (.StatisticsError
      ("Axis " ++ toString axis ++ " is out of bounds for array with " ++
        toString a.shape.length ++ " dimensions"))
  else
    match op with
    | .Mean => parallel_mean_axis a axis
    | .Sum => parallel_sum_axis a axis
    | .Min => parallel_min_axis a axis
    | .Max => parallel_max_axis a axis

/-- Model of a NetCDF variable as the core reads it through the `netcdf`
crate: a name, the ordered (dimension-name, length) pairs, and the full
data buffer that `get_values::<f32, _>(..)` returns. -/
structure NCVar where
  name : String
  dims : List (String × Nat)
  data : List FloatV
  deriving DecidableEq, Repr

/-- Model of an open NetCDF file: its variables. -/
structure NCFile where
  vars : List NCVar
  deriving DecidableEq, Repr

/-- Model of `netcdf::File::variable(name)`. -/
def NCFile.findVar (f : NCFile) (name : String) : Option NCVar :=
  f.vars.find? (fun v => v.name == name)

/-- Embedding of `compute_stat_over_dimension` (`src/statistics/netcdf.rs`
lines 118-169): look the variable up, resolve the requested dimension name
to an axis index (failing fast with `DimensionNotFound` before the data is
read), load the data into an `ArrayD`, reduce, compute the kept dimension
names by filtering the reduced index out of the enumerated name list, and
derive the result variable name. -/
def compute_stat_over_dimension (file : NCFile) (varName dimName : String)
    (operation : StatOperation) :
    Except RuNeVisError (ArrayD × List String × String) :=
  match file.findVar varName with
  | none => .error (.VariableNotFound varName)
  | some var =>
    let dimNames := var.dims.map Prod.fst
    match dimNames.findIdx? (fun d => d == dimName) with
    | none => .error (.DimensionNotFound varName dimName)
    | some axisIndex =>
      let shape := var.dims.map Prod.snd
      match from_shape_vec shape var.data with
      | .error e => .error e
      | .ok data =>
        match reduce_along_axis data axisIndex operation with
        | .error e => .error e
        | .ok resultArray =>
          let keptDimNames := dimNames.enum.filterMap
            (fun p => if p.1 = axisIndex then none else some p.2)
          let newVarName :=
            varName ++ "_" ++ operation.as_str ++ "_over_" ++ dimName
          .ok (resultArray, keptDimNames, newVarName)

/-- Embedding of `ParallelConfig` from `src/parallel.rs`. -/
structure ParallelConfig where
  num_threads : Option Nat
  deriving DecidableEq, Repr

/-- Modelled from the rayon crate's documented contract (external
collaborator): `ThreadPoolBuilder::num_threads(n)` with `n = 0` means the
thread count is selected automatically, exactly as when `num_threads` is
never called; `build_global` fails precisely when the global pool has
already been initialized.  The Boolean argument is whether the
process-wide pool has already been initialized. -/
def rayonBuildGlobal (_numThreads : Nat) (alreadyInitialized : Bool) :
    Except String Unit :=
  if alreadyInitialized then
    .error "The global thread pool has already been initialized."
  else
    .ok ()

/-- Embedding of `ParallelConfig::setup_global_pool` (`src/parallel.rs`
lines 22-43): with an explicit thread count, build the global rayon pool
and wrap a failure in `ThreadPoolError`; with no explicit count, do
nothing and succeed.  The Boolean argument carries the process-wide
"global pool already initialized" state that the source keeps in rayon's
global. -/
def ParallelConfig.setup_global_pool (c : ParallelConfig)
    (alreadyInitialized : Bool) : Except RuNeVisError Unit :=
  match c.num_threads with
  | some n =>
    match rayonBuildGlobal n alreadyInitialized with
    | .error e =>
      .error (.ThreadPoolError
        ("Failed to initialize thread pool with " ++ toString n ++
          " threads: " ++ e))
    | .ok _ => .ok ()
  | none => .ok ()

/-- One parallel task of the executor: compute the output cells whose flat
indices are in `idxs`, writing each into its own slot of the shared
output buffer (`src/statistics/parallel.rs` lines 36-78 dispatch the
cells of `0..output_size` across rayon's worker threads; each cell is
computed start-to-finish by one task and stored at its flat index). -/
def runTasks (f : Nat → FloatV) (buf : List (Option FloatV))
    (idxs : List Nat) : List (Option FloatV) :=
  idxs.foldl (fun b i => b.set i (some (f i))) buf

/-- Run the parallel executor under an explicit schedule: `sched` lists,
per worker task, the flat output indices that task computes.  All tasks
write into disjoint slots of one output buffer of size `n`, initially
unwritten. -/
def runSchedule (n : Nat) (f : Nat → FloatV) (sched : List (List Nat)) :
    List (Option FloatV) :=
  sched.foldl (runTasks f) (List.replicate n (none : Option FloatV))

/-- A schedule is valid when every output index is assigned to some task
(the executor partitions `0..output_size` across the workers). -/
abbrev coversRange (n : Nat) (sched : List (List Nat)) : Prop :=
  ∀ j, j < n → j ∈ sched.flatten

/-- Embedding of `DimSlice` from `src/cli.rs` (the Rust field `end` is
called `stop` here because `end` is a Lean keyword). -/
structure DimSlice where
  dimension : String
  start : Nat
  stop : Nat
  deriving DecidableEq, Repr

/-- Embedding of `SliceSpec` from `src/cli.rs` (the Rust field `variable`
is called `varName` here because `variable` is a Lean keyword).  The CLI
parser always creates `slices` non-empty, with the first entry named
`"__first_dim__"`. -/
structure SliceSpec where
  varName : String
  slices : List DimSlice
  deriving DecidableEq, Repr

/-- Embedding of the range-building loop of `extract_slice`
(`src/netcdf_io.rs` lines 207-256): for each dimension in order, take the
`variable:start:end` range on dimension 0 when the first slice entry is
the `"__first_dim__"` marker, otherwise the named range if one was given,
otherwise the whole dimension; reject with `InvalidSlice` any range with
`start >= size`, `end > size` or `start >= end`.  `slices.headD` stands
for the source's `slices[0]`, which the CLI parser guarantees exists. -/
def buildSliceRanges (spec : SliceSpec) :
    List (String × Nat) → Nat → Except RuNeVisError (List (Nat × Nat))
  | [], _ => .ok []
  | (dimName, dimSize) :: rest, dimIdx =>
    let firstSlice := spec.slices.headD ⟨"", 0, 0⟩
    let range? : Except RuNeVisError (Nat × Nat) :=
      if dimIdx = 0 ∧ firstSlice.dimension = "__first_dim__" then
        if firstSlice.start ≥ dimSize ∨ firstSlice.stop > dimSize ∨
            firstSlice.start ≥ firstSlice.stop then
          .error (.InvalidSlice
            ("Invalid slice range for dimension '" ++ dimName ++ "': " ++
              toString firstSlice.start ++ ":" ++ toString firstSlice.stop ++
              " (dimension size: " ++ toString dimSize ++ ")"))
        else .ok (firstSlice.start, firstSlice.stop)
      else
        match spec.slices.find? (fun s => s.dimension == dimName) with
        | some dimSlice =>
          if dimSlice.start ≥ dimSize ∨ dimSlice.stop > dimSize ∨
              dimSlice.start ≥ dimSlice.stop then
            .error (.InvalidSlice
              ("Invalid slice range for dimension '" ++ dimName ++ "': " ++
                toString dimSlice.start ++ ":" ++ toString dimSlice.stop ++
                " (dimension size: " ++ toString dimSize ++ ")"))
          else .ok (dimSlice.start, dimSlice.stop)
        | none => .ok (0, dimSize)
    match range? with
    | .error e => .error e
    | .ok r =>
      match buildSliceRanges spec rest (dimIdx + 1) with
      | .error e => .error e
      | .ok rs => .ok (r :: rs)

/-- Model of `netcdf`'s ranged `get_values` (external collaborator): read
the row-major sub-array selected by per-dimension `start..end` ranges. -/
def readRanges (shape : List Nat) (data : List FloatV)
    (ranges : List (Nat × Nat)) : List FloatV :=
  let slicedShape := ranges.map (fun r => r.2 - r.1)
  (List.range slicedShape.prod).map (fun j =>
    let offsets := decode slicedShape j
    let coords := (ranges.zip offsets).map (fun p => p.1.1 + p.2)
    (data[encode shape coords]?).getD FloatV.nan)

/-- Embedding of `extract_slice` (`src/netcdf_io.rs` lines 176-352): look
the variable up, validate and build the per-dimension ranges, then read
the data — but only when the variable has at most 4 dimensions; with 5 or
more the arity `match` on the range list falls to the `_` arm and fails
with `InvalidSlice` before any data is read.  The value returned on
success is the sliced shape and data (the source prints them). -/
def extract_slice (file : NCFile) (spec : SliceSpec) :
    Except RuNeVisError (List Nat × List FloatV) :=
  match file.findVar spec.varName with
  | none => .error (.VariableNotFound spec.varName)
  | some var =>
    match buildSliceRanges spec var.dims 0 with
    | .error e => .error e
    | .ok sliceRanges =>
      if sliceRanges.length ≥ 1 ∧ sliceRanges.length ≤ 4 then
        let shape := var.dims.map Prod.snd
        let slicedData := readRanges shape var.data sliceRanges
        let slicedShape := sliceRanges.map (fun r => r.2 - r.1)
        .ok (slicedShape, slicedData)
      else
        .error (.InvalidSlice
          "Unsupported number of dimensions for slicing (max 4)")

deriving instance DecidableEq for Except

/-- A fold leaves its accumulator unchanged when every list element is
ignored by the folding function. -/
theorem foldl_fixed {α β : Type} (f : β → α → β) (init : β) (l : List α)
    (h : ∀ b a, a ∈ l → f b a = b) : l.foldl f init = init := by
  induction l generalizing init with
  | nil => rfl
  | cons x xs ih =>
    rw [List.foldl_cons, h init x (List.mem_cons_self x xs)]
    exact ih init fun b a ha => h b a (List.mem_cons_of_mem _ ha)

/-- C1: for the 1-D input `[1.0, NaN, 3.0, Inf, 5.0, -Inf]` the four
reduction kernels skip every non-finite value: Sum returns 9.0, Min
returns 1.0, Max returns 5.0 and Mean returns 3.0 (the average of the
finite values 1, 3 and 5). -/
theorem claim1_kernels_skip_nonfinite :
    reduce_along_axis
        ⟨[6], [.finite 1, .nan, .finite 3, .inf, .finite 5, .neginf]⟩ 0 .Sum
      = .ok ⟨[], [.finite 9]⟩ ∧
    reduce_along_axis
        ⟨[6], [.finite 1, .nan, .finite 3, .inf, .finite 5, .neginf]⟩ 0 .Min
      = .ok ⟨[], [.finite 1]⟩ ∧
    reduce_along_axis
        ⟨[6], [.finite 1, .nan, .finite 3, .inf, .finite 5, .neginf]⟩ 0 .Max
      = .ok ⟨[], [.finite 5]⟩ ∧
    reduce_along_axis
        ⟨[6], [.finite 1, .nan, .finite 3, .inf, .finite 5, .neginf]⟩ 0 .Mean
      = .ok ⟨[], [.finite 3]⟩ := by
  have h1 : List.range 1 = [0] := rfl
  have h6 : List.range 6 = [0, 1, 2, 3, 4, 5] := rfl
  refine ⟨?_, by decide, by decide, ?_⟩
  · norm_num [reduce_along_axis, parallel_sum_axis, foldAxis, laneRead,
      h1, h6, decode, encode, ndGet, FloatV.add, FloatV.isFinite,
      FloatV.toQ]
  · norm_num [reduce_along_axis, parallel_mean_axis, meanCellF, meanScan,
      meanCoordsGo, from_shape_vec, f64FromF32, h1, h6, List.map_cons,
      List.map_nil, List.foldl_cons, List.foldl_nil, List.set,
      decode, encode, ndGet, FloatV.add, FloatV.isFinite, FloatV.toQ]

/-- C5 counterexample: on a 1-D array with axis 5 requested,
`reduce_along_axis` fails with the error kind `StatisticsError`, not with
an `AxisOutOfBounds` kind (no such variant exists in `RuNeVisError`). -/
theorem claim5_counterexample :
    reduce_along_axis ⟨[2], [.finite 1, .finite 2]⟩ 5 .Sum
      = .error (.StatisticsError
          "Axis 5 is out of bounds for array with 1 dimensions") ∧
    RuNeVisError.kindName (.StatisticsError
        "Axis 5 is out of bounds for array with 1 dimensions")
      ≠ "AxisOutOfBounds" := by
  refine ⟨by decide, by decide⟩

/-- C5 amended: for every array and every axis index at or past the
array's rank, `reduce_along_axis` fails with `StatisticsError` carrying
the message "Axis i is out of bounds for array with n dimensions". -/
theorem claim5_amended (a : ArrayD) (axis : Nat) (op : StatOperation)
    (h : a.shape.length ≤ axis) :
    reduce_along_axis a axis op
      = .error (.StatisticsError
          ("Axis " ++ toString axis ++ " is out of bounds for array with "
            ++ toString a.shape.length ++ " dimensions")) := by
  unfold reduce_along_axis
  rw [if_pos h]

/-- Witness for `claim5_amended` at a concrete array and axis. -/
theorem claim5_amended_witness :
    (⟨[2], [.finite 1, .finite 2]⟩ : ArrayD).shape.length ≤ 5 ∧
    reduce_along_axis ⟨[2], [.finite 1, .finite 2]⟩ 5 .Min
      = .error (.StatisticsError
          "Axis 5 is out of bounds for array with 1 dimensions") :=
  ⟨by decide, claim5_amended ⟨[2], [.finite 1, .finite 2]⟩ 5 .Min (by decide)⟩

/-- C8 counterexample: requesting zero threads on a fresh (not yet
initialized) global pool succeeds — rayon treats a zero thread count as
"select automatically" — so it does not fail with `ThreadPoolError`. -/
theorem claim8_counterexample :
    ParallelConfig.setup_global_pool ⟨some 0⟩ false = .ok () := by
  decide

/-- C8 amended: requesting zero threads means automatic thread-count
selection and succeeds on a fresh pool; re-configuration with an explicit
thread count after the global pool has been initialized fails with
`ThreadPoolError`. -/
theorem claim8_amended :
    ParallelConfig.setup_global_pool ⟨some 0⟩ false = .ok () ∧
    ∀ n : Nat, ParallelConfig.setup_global_pool ⟨some n⟩ true
      = .error (.ThreadPoolError
          ("Failed to initialize thread pool with " ++ toString n ++
            " threads: " ++
            "The global thread pool has already been initialized.")) := by
  exact ⟨rfl, fun n => rfl⟩

/-- C4: a reduction request naming a dimension absent from the variable's
declared dimension names fails with `DimensionNotFound` carrying the
variable name and the requested dimension name.  The variable — and so in
particular its data buffer — is universally quantified and the error does
not depend on it: the failure happens before any data is loaded. -/
theorem claim4_dimension_not_found (file : NCFile)
    (varName dimName : String) (op : StatOperation) (var : NCVar)
    (h1 : file.findVar varName = some var)
    (h2 : dimName ∉ var.dims.map Prod.fst) :
    compute_stat_over_dimension file varName dimName op
      = .error (.DimensionNotFound varName dimName) := by
  have hnone : (var.dims.map Prod.fst).findIdx? (fun d => d == dimName)
      = none := by
    rw [List.findIdx?_eq_none_iff]
    intro x hx
    rw [beq_eq_false_iff_ne]
    exact fun hxd => h2 (hxd ▸ hx)
  simp only [compute_stat_over_dimension, h1, hnone]

/-- Witness for `claim4_dimension_not_found` on a concrete file. -/
theorem claim4_witness :
    NCFile.findVar ⟨[⟨"t", [("x", 2), ("y", 3)], List.replicate 6 (.finite 0)⟩]⟩ "t"
      = some ⟨"t", [("x", 2), ("y", 3)], List.replicate 6 (.finite 0)⟩ ∧
    "bogus" ∉ ([("x", 2), ("y", 3)] : List (String × Nat)).map Prod.fst ∧
    compute_stat_over_dimension
        ⟨[⟨"t", [("x", 2), ("y", 3)], List.replicate 6 (.finite 0)⟩]⟩
        "t" "bogus" .Mean
      = .error (.DimensionNotFound "t" "bogus") :=
  ⟨by decide, by decide,
    claim4_dimension_not_found _ "t" "bogus" .Mean
      ⟨"t", [("x", 2), ("y", 3)], List.replicate 6 (.finite 0)⟩
      (by decide) (by decide)⟩

/-- For a well-formed array and a valid axis, every reduction succeeds and
the result's shape is the source shape with the reduced axis removed. -/
theorem reduce_ok_shape (a : ArrayD) (axis : Nat) (op : StatOperation)
    (hwf : a.wf) (h : axis < a.shape.length) :
    ∃ res, reduce_along_axis a axis op = .ok res ∧
      res.shape = a.shape.eraseIdx axis := by
  unfold reduce_along_axis
  rw [if_neg (Nat.not_le.mpr h)]
  cases op with
  | Sum => exact ⟨_, rfl, rfl⟩
  | Min => exact ⟨_, rfl, rfl⟩
  | Max => exact ⟨_, rfl, rfl⟩
  | Mean =>
    have h1 : (a.data.map f64FromF32).length = a.shape.prod := by
      rw [List.length_map]; exact hwf
    simp only [parallel_mean_axis, h1, if_true, from_shape_vec,
      List.length_map, List.length_range]
    exact ⟨_, rfl, rfl⟩

/-- C2: for every well-formed array and every valid axis,
`reduce_along_axis` succeeds and returns an array whose shape is the
source shape with the entry at the reduced axis removed, so the rank
decreases by exactly 1. -/
theorem claim2_axis_removal (a : ArrayD) (axis : Nat) (op : StatOperation)
    (hwf : a.wf) (h : axis < a.shape.length) :
    ∃ res, reduce_along_axis a axis op = .ok res ∧
      res.shape = a.shape.eraseIdx axis ∧
      res.shape.length + 1 = a.shape.length := by
  obtain ⟨res, hr, hs⟩ := reduce_ok_shape a axis op hwf h
  exact ⟨res, hr, hs, by rw [hs]; exact List.length_eraseIdx_add_one h⟩

/-- Witness for `claim2_axis_removal` on a concrete 2x3 array. -/
theorem claim2_witness :
    (⟨[2, 3], List.replicate 6 (.finite 1)⟩ : ArrayD).wf ∧ 0 < 2 ∧
    ∃ res,
      reduce_along_axis ⟨[2, 3], List.replicate 6 (.finite 1)⟩ 0 .Max
        = .ok res ∧
      res.shape = ([2, 3] : List Nat).eraseIdx 0 ∧
      res.shape.length + 1 = 2 :=
  ⟨by decide, by decide,
    claim2_axis_removal ⟨[2, 3], List.replicate 6 (.finite 1)⟩ 0 .Max
      (by decide) (by decide)⟩

/-- C6: whenever `compute_stat_over_dimension` succeeds, the derived
result variable name is exactly the source variable name, an underscore,
the operation name (mean, sum, minimum or maximum), "_over_", and the
reduced dimension name. -/
theorem claim6_derived_name (file : NCFile) (varName dimName : String)
    (op : StatOperation) (res : ArrayD × List String × String)
    (h : compute_stat_over_dimension file varName dimName op = .ok res) :
    res.2.2 = varName ++ "_" ++ op.as_str ++ "_over_" ++ dimName := by
  unfold compute_stat_over_dimension at h
  split at h
  · exact Except.noConfusion h
  · simp only [] at h
    split at h
    · exact Except.noConfusion h
    · split at h
      · exact Except.noConfusion h
      · split at h
        · exact Except.noConfusion h
        · injection h with h'
          subst h'
          rfl

/-- Witness for `claim6_derived_name`: reducing variable "temperature"
over dimension "time" with Mean derives "temperature_mean_over_time". -/
theorem claim6_witness :
    compute_stat_over_dimension
        ⟨[⟨"temperature", [("time", 2), ("lat", 1)],
          [.finite 1, .finite 2]⟩]⟩ "temperature" "time" .Mean
      = .ok (⟨[1], [.finite (3 / 2)]⟩, ["lat"], "temperature_mean_over_time") ∧
    "temperature_mean_over_time"
      = "temperature" ++ "_" ++ StatOperation.as_str .Mean ++ "_over_" ++ "time" := by
  have h : compute_stat_over_dimension
      ⟨[⟨"temperature", [("time", 2), ("lat", 1)],
        [.finite 1, .finite 2]⟩]⟩ "temperature" "time" .Mean
      = .ok (⟨[1], [.finite (3 / 2)]⟩, ["lat"], "temperature_mean_over_time") := by
    have h1 : List.range 1 = [0] := rfl
    have h2 : List.range 2 = [0, 1] := rfl
    norm_num [compute_stat_over_dimension, NCFile.findVar, List.find?,
      from_shape_vec, reduce_along_axis, parallel_mean_axis, meanCellF,
      meanScan, meanCoordsGo, f64FromF32, h1, h2, List.map_cons,
      List.map_nil, List.foldl_cons, List.foldl_nil, List.set, decode,
      encode, ndGet, FloatV.isFinite, FloatV.toQ, List.findIdx?]
    exact ⟨by decide, by decide⟩
  exact ⟨h, claim6_derived_name _ _ _ _ _ h⟩

/-- Enumerating a list from `s` and filtering index `k` out keeps the
whole list when `k` is below `s` and otherwise removes position `k - s`. -/
theorem enumFrom_filterMap_ne {α : Type} (l : List α) (k : Nat) :
    ∀ s, (List.enumFrom s l).filterMap
        (fun p => if p.1 = k then none else some p.2)
      = if k < s then l else l.eraseIdx (k - s) := by
  induction l with
  | nil => intro s; simp [List.eraseIdx]
  | cons a l ih =>
    intro s
    simp only [List.enumFrom, List.filterMap_cons]
    by_cases hs : s = k
    · subst hs
      simp only [if_pos rfl, ih (s + 1), if_pos (Nat.lt_succ_self s),
        if_neg (Nat.lt_irrefl s), Nat.sub_self]
      rfl
    · rw [if_neg hs, ih (s + 1)]
      by_cases hks : k < s
      · rw [if_pos (Nat.lt_succ_of_lt hks), if_pos hks]
      · have hsk : s < k := Nat.lt_of_le_of_ne (Nat.not_lt.mp hks)
          fun e => hs e
        rw [if_neg (by omega), if_neg hks]
        have : k - s = (k - (s + 1)) + 1 := by omega
        rw [this]
        rfl

/-- C7: when a reduction over resolved axis `k` succeeds, the returned
kept-dimension-name list is the variable's ordered dimension-name list
with the entry at position `k` removed (relative order preserved), and
its length equals the rank of the result array. -/
theorem claim7_kept_names (file : NCFile) (varName dimName : String)
    (op : StatOperation) (var : NCVar) (k : Nat)
    (res : ArrayD × List String × String)
    (hv : file.findVar varName = some var)
    (hwf : var.data.length = (var.dims.map Prod.snd).prod)
    (hk : (var.dims.map Prod.fst).findIdx? (fun d => d == dimName) = some k)
    (h : compute_stat_over_dimension file varName dimName op = .ok res) :
    res.2.1 = (var.dims.map Prod.fst).eraseIdx k ∧
    res.2.1.length = res.1.shape.length := by
  have hklt : k < (var.dims.map Prod.fst).length := by
    obtain ⟨hlt, -, -⟩ := List.findIdx?_eq_some_iff_getElem.mp hk
    exact hlt
  have hklt' : k < (var.dims.map Prod.snd).length := by
    rw [List.length_map] at hklt ⊢; exact hklt
  have hfs : from_shape_vec (var.dims.map Prod.snd) var.data
      = .ok ⟨var.dims.map Prod.snd, var.data⟩ := by
    unfold from_shape_vec; rw [if_pos hwf]
  obtain ⟨res', hr, hs⟩ :=
    reduce_ok_shape ⟨var.dims.map Prod.snd, var.data⟩ k op hwf hklt'
  unfold compute_stat_over_dimension at h
  rw [hv] at h
  simp only [hk, hfs, hr] at h
  injection h with h'
  subst h'
  constructor
  · have := enumFrom_filterMap_ne (var.dims.map Prod.fst) k 0
    simpa [List.enum, Nat.not_lt_zero] using this
  · have hkept : (List.enumFrom 0 (var.dims.map Prod.fst)).filterMap
        (fun p => if p.1 = k then none else some p.2)
      = (var.dims.map Prod.fst).eraseIdx k := by
      have := enumFrom_filterMap_ne (var.dims.map Prod.fst) k 0
      simpa [Nat.not_lt_zero] using this
    simp only [List.enum, hkept, hs]
    have e1 := List.length_eraseIdx_add_one hklt
    have e2 := List.length_eraseIdx_add_one hklt'
    have e3 : (var.dims.map Prod.fst).length = (var.dims.map Prod.snd).length := by
      rw [List.length_map, List.length_map]
    omega

/-- Witness for `claim7_kept_names` on a concrete 3-D variable. -/
theorem claim7_witness :
    NCFile.findVar
        ⟨[⟨"v", [("a", 1), ("b", 2), ("c", 1)], [.finite 1, .finite 2]⟩]⟩ "v"
      = some ⟨"v", [("a", 1), ("b", 2), ("c", 1)], [.finite 1, .finite 2]⟩ ∧
    ([.finite 1, .finite 2] : List FloatV).length
      = (([("a", 1), ("b", 2), ("c", 1)] : List (String × Nat)).map Prod.snd).prod ∧
    (([("a", 1), ("b", 2), ("c", 1)] : List (String × Nat)).map
        Prod.fst).findIdx? (fun d => d == "b") = some 1 ∧
    compute_stat_over_dimension
        ⟨[⟨"v", [("a", 1), ("b", 2), ("c", 1)], [.finite 1, .finite 2]⟩]⟩
        "v" "b" .Min
      = .ok (⟨[1, 1], [.finite 1]⟩, ["a", "c"], "v_minimum_over_b") ∧
    (["a", "c"] : List String)
      = (([("a", 1), ("b", 2), ("c", 1)] : List (String × Nat)).map
          Prod.fst).eraseIdx 1 ∧
    (["a", "c"] : List String).length = ([1, 1] : List Nat).length := by
  have h4 : compute_stat_over_dimension
      ⟨[⟨"v", [("a", 1), ("b", 2), ("c", 1)], [.finite 1, .finite 2]⟩]⟩
      "v" "b" .Min
      = .ok (⟨[1, 1], [.finite 1]⟩, ["a", "c"], "v_minimum_over_b") := by decide
  have hc := claim7_kept_names _ "v" "b" .Min
    ⟨"v", [("a", 1), ("b", 2), ("c", 1)], [.finite 1, .finite 2]⟩ 1 _
    (by decide) (by decide) (by decide) h4
  exact ⟨by decide, by decide, by decide, h4, hc.1, hc.2⟩

/-- Decoding a flat index yields one coordinate per axis. -/
theorem decode_length (s : List Nat) (r : Nat) : (decode s r).length = s.length := by
  induction s generalizing r with
  | nil => rfl
  | cons d s ih => simp [decode, ih]

/-- Setting position `k` of a list built by inserting at `k` replaces the
inserted element. -/
theorem set_insertIdx {α : Type} (x y : α) :
    ∀ (k : Nat) (l : List α), k ≤ l.length →
      (l.insertIdx k x).set k y = l.insertIdx k y := by
  intro k
  induction k with
  | zero =>
    intro l _
    rw [List.insertIdx_zero, List.insertIdx_zero]
    rfl
  | succ k ih =>
    intro l hk
    cases l with
    | nil => exact absurd hk (by simp)
    | cons a l =>
      rw [List.insertIdx_succ_cons, List.insertIdx_succ_cons]
      show a :: (l.insertIdx k x).set k y = a :: l.insertIdx k y
      exact congrArg (a :: ·) (ih l (Nat.le_of_succ_le_succ hk))

/-- Once the coordinate loop of `parallel_mean_axis` has passed the
reduced axis, it emits exactly the row-major digits of the remaining
output shape. -/
theorem meanCoordsGo_past (axis : Nat) (ns : List Nat) (dims : List Nat) :
    ∀ (dimIdx r c : Nat), axis < dimIdx →
      dims.length = (ns.drop c).length →
      meanCoordsGo axis ns dims dimIdx r c = decode (ns.drop c) r := by
  induction dims with
  | nil =>
    intro dimIdx r c _ hlen
    rw [List.length_eq_zero.mp hlen.symm]
    rfl
  | cons d dims ih =>
    intro dimIdx r c hax hlen
    have hne : dimIdx ≠ axis := by omega
    have hcl : c < ns.length := by
      have := List.length_drop c ns
      simp only [List.length_cons] at hlen
      omega
    simp only [meanCoordsGo, if_neg hne]
    rw [List.drop_eq_getElem_cons hcl, decode]
    refine congrArg₂ List.cons rfl ?_
    refine ih (dimIdx + 1) _ (c + 1) (by omega) ?_
    have := List.length_drop c ns
    have := List.length_drop (c + 1) ns
    simp only [List.length_cons] at hlen
    omega

/-- Before the reduced axis, the coordinate loop of `parallel_mean_axis`
emits the row-major digits of the output shape with a `0` inserted at the
(relative) position of the reduced axis. -/
theorem meanCoordsGo_pre (axis : Nat) (ns : List Nat) (dims : List Nat) :
    ∀ (dimIdx r c : Nat), dimIdx ≤ axis → axis - dimIdx < dims.length →
      dims.length = (ns.drop c).length + 1 →
      meanCoordsGo axis ns dims dimIdx r c
        = (decode (ns.drop c) r).insertIdx (axis - dimIdx) 0 := by
  induction dims with
  | nil =>
    intro dimIdx r c _ h2 _
    exact absurd h2 (Nat.not_lt_zero _)
  | cons d dims ih =>
    intro dimIdx r c h1 h2 hlen
    simp only [List.length_cons] at h2 hlen
    by_cases he : dimIdx = axis
    · subst he
      simp only [meanCoordsGo, if_pos rfl, Nat.sub_self, List.insertIdx_zero]
      refine congrArg₂ List.cons rfl ?_
      exact meanCoordsGo_past dimIdx ns dims (dimIdx + 1) r c
        (Nat.lt_succ_self _) (by omega)
    · have hlt : dimIdx < axis := Nat.lt_of_le_of_ne h1 he
      have hdl : 0 < dims.length := by omega
      have hcl : c < ns.length := by
        have := List.length_drop c ns
        omega
      simp only [meanCoordsGo, if_neg he]
      rw [List.drop_eq_getElem_cons hcl, decode]
      have hsub : axis - dimIdx = (axis - (dimIdx + 1)) + 1 := by omega
      rw [hsub, List.insertIdx_succ_cons]
      refine congrArg₂ List.cons rfl ?_
      refine ih (dimIdx + 1) _ (c + 1) (by omega) (by omega) ?_
      have := List.length_drop c ns
      have := List.length_drop (c + 1) ns
      omega

/-- The coordinates used by the mean kernel for lane position `i` are the
canonical row-major coordinates: the decoded output coordinate with `i`
inserted at the reduced axis.  This shows the hand-rolled stride
arithmetic of `parallel_mean_axis` agrees with the row-major layout. -/
theorem meanCoords_set (shape : List Nat) (axis j i : Nat)
    (h : axis < shape.length) :
    (meanCoordsGo axis (shape.eraseIdx axis) shape 0 j 0).set axis i
      = (decode (shape.eraseIdx axis) j).insertIdx axis i := by
  have hlen : shape.length = (shape.eraseIdx axis).length + 1 :=
    (List.length_eraseIdx_add_one h).symm
  have h0 := meanCoordsGo_pre axis (shape.eraseIdx axis) shape 0 j 0
    (Nat.zero_le _) (by omega) (by rw [List.drop_zero]; exact hlen)
  rw [List.drop_zero, Nat.sub_zero] at h0
  rw [h0]
  refine set_insertIdx 0 i axis _ ?_
  rw [decode_length]
  omega

/-- A successful checked `get` is the successful flat row-major read. -/
theorem ndGet_eq_some {shape : List Nat} {data : List FloatV}
    {coords : List Nat} {v : FloatV} (h : ndGet shape data coords = some v) :
    data[encode shape coords]? = some v := by
  unfold ndGet at h
  split at h
  · exact h
  · exact Option.noConfusion h

/-- Widening the whole buffer to `f64` is the identity in the exact
model. -/
theorem map_f64FromF32 (l : List FloatV) : l.map f64FromF32 = l :=
  List.map_id'' (fun _ => rfl) l

/-- If every value read along the reduced axis is non-finite, the mean
kernel's accumulation loop never fires: sum and count stay zero. -/
theorem meanScan_zero (a : ArrayD) (axis j : Nat)
    (haxis : axis < a.shape.length)
    (H : ∀ i, i < a.shape.getD axis 0 →
      (laneRead a.shape axis a.data j i).isFinite = false) :
    meanScan a axis j = ((0 : ℚ), (0 : Nat)) := by
  simp only [meanScan, map_f64FromF32]
  apply foldl_fixed
  intro b i hi
  rw [List.mem_range] at hi
  rw [meanCoords_set a.shape axis j i haxis]
  cases hnd : ndGet a.shape a.data
      ((decode (a.shape.eraseIdx axis) j).insertIdx axis i) with
  | none => rfl
  | some v =>
    have hv : laneRead a.shape axis a.data j i = v := by
      unfold laneRead
      rw [ndGet_eq_some hnd]
      rfl
    have hf := H i hi
    rw [hv] at hf
    simp [hf]

/-- The output cells of `foldAxis` fold the kernel over the lane reads. -/
theorem foldAxis_cell (shape : List Nat) (axis : Nat) (data : List FloatV)
    (init : FloatV) (f : FloatV → FloatV → FloatV) (j : Nat)
    (hj : j < (shape.eraseIdx axis).prod) :
    (foldAxis shape axis data init f).data[j]?
      = some ((List.range (shape.getD axis 0)).foldl
          (fun acc i => f acc (laneRead shape axis data j i)) init) := by
  simp only [foldAxis]
  rw [List.getElem?_map, List.getElem?_range hj]
  rfl

/-- C3: at any output coordinate whose values along the reduced axis
contain no finite value, Min, Max and Mean all yield NaN while Sum yields
0.0. -/
theorem claim3_all_invalid_axis (a : ArrayD) (axis j : Nat) (hwf : a.wf)
    (haxis : axis < a.shape.length)
    (hj : j < (a.shape.eraseIdx axis).prod)
    (H : ∀ i, i < a.shape.getD axis 0 →
      (laneRead a.shape axis a.data j i).isFinite = false) :
    (reduce_along_axis a axis .Min).map (fun r => r.data[j]?)
      = .ok (some .nan) ∧
    (reduce_along_axis a axis .Max).map (fun r => r.data[j]?)
      = .ok (some .nan) ∧
    (reduce_along_axis a axis .Mean).map (fun r => r.data[j]?)
      = .ok (some .nan) ∧
    (reduce_along_axis a axis .Sum).map (fun r => r.data[j]?)
      = .ok (some (.finite 0)) := by
  have hskip : ∀ (g : FloatV → FloatV → FloatV) (init : FloatV),
      (List.range (a.shape.getD axis 0)).foldl
        (fun acc i =>
          if (laneRead a.shape axis a.data j i).isFinite then
            g acc (laneRead a.shape axis a.data j i)
          else acc)
        init = init := by
    intro g init
    apply foldl_fixed
    intro b i hi
    rw [List.mem_range] at hi
    rw [H i hi]
    rfl
  refine ⟨?_, ?_, ?_, ?_⟩ <;>
    unfold reduce_along_axis <;>
    rw [if_neg (Nat.not_le.mpr haxis)]
  · simp only [parallel_min_axis, Except.map, ArrayD.mapv,
      List.getElem?_map, foldAxis_cell _ _ _ _ _ j hj, hskip]
    rfl
  · simp only [parallel_max_axis, Except.map, ArrayD.mapv,
      List.getElem?_map, foldAxis_cell _ _ _ _ _ j hj, hskip]
    rfl
  · have h1 : (a.data.map f64FromF32).length = a.shape.prod := by
      rw [List.length_map]; exact hwf
    simp only [parallel_mean_axis, h1, if_true, from_shape_vec,
      List.length_map, List.length_range, Except.map]
    rw [List.getElem?_map, List.getElem?_range hj]
    simp [meanCellF, meanScan_zero a axis j haxis H]
  · simp only [parallel_sum_axis, Except.map,
      foldAxis_cell _ _ _ _ _ j hj, hskip]

/-- Witness for `claim3_all_invalid_axis` on the 1-D all-NaN input. -/
theorem claim3_witness :
    (⟨[2], [.nan, .nan]⟩ : ArrayD).wf ∧ 0 < 1 ∧
    0 < (([2] : List Nat).eraseIdx 0).prod ∧
    (∀ i, i < ([2] : List Nat).getD 0 0 →
      (laneRead [2] 0 [.nan, .nan] 0 i).isFinite = false) ∧
    (reduce_along_axis ⟨[2], [.nan, .nan]⟩ 0 .Min).map (fun r => r.data[0]?)
      = .ok (some .nan) ∧
    (reduce_along_axis ⟨[2], [.nan, .nan]⟩ 0 .Max).map (fun r => r.data[0]?)
      = .ok (some .nan) ∧
    (reduce_along_axis ⟨[2], [.nan, .nan]⟩ 0 .Mean).map (fun r => r.data[0]?)
      = .ok (some .nan) ∧
    (reduce_along_axis ⟨[2], [.nan, .nan]⟩ 0 .Sum).map (fun r => r.data[0]?)
      = .ok (some (.finite 0)) := by
  have hc := claim3_all_invalid_axis ⟨[2], [.nan, .nan]⟩ 0 0
    (by decide) (by decide) (by decide) (by decide)
  exact ⟨by decide, by decide, by decide, by decide,
    hc.1, hc.2.1, hc.2.2.1, hc.2.2.2⟩

/-- Tasks preserve the output buffer's size. -/
theorem runTasks_length (f : Nat → FloatV) (idxs : List Nat) :
    ∀ buf : List (Option FloatV), (runTasks f buf idxs).length = buf.length := by
  induction idxs with
  | nil => intro buf; rfl
  | cons i idxs ih =>
    intro buf
    show (runTasks f (buf.set i (some (f i))) idxs).length = buf.length
    rw [ih, List.length_set]

/-- After running a task list, a slot holds its own cell's value exactly
when some task computed it, and is otherwise untouched: every write goes
to the slot of the cell it computed. -/
theorem runTasks_getElem (f : Nat → FloatV) (idxs : List Nat) :
    ∀ (buf : List (Option FloatV)) (j : Nat),
      (runTasks f buf idxs)[j]?
        = if j ∈ idxs ∧ j < buf.length then some (some (f j)) else buf[j]? := by
  induction idxs with
  | nil =>
    intro buf j
    simp [runTasks]
  | cons i idxs ih =>
    intro buf j
    show (runTasks f (buf.set i (some (f i))) idxs)[j]? = _
    rw [ih, List.length_set]
    by_cases hmem : j ∈ idxs ∧ j < buf.length
    · rw [if_pos hmem, if_pos ⟨List.mem_cons_of_mem _ hmem.1, hmem.2⟩]
    · rw [if_neg hmem, List.getElem?_set]
      by_cases hij : i = j
      · subst hij
        by_cases hlen : i < buf.length
        · rw [if_pos rfl, if_pos hlen,
            if_pos ⟨List.mem_cons_self i idxs, hlen⟩]
        · rw [if_pos rfl, if_neg hlen, if_neg (fun hc => hlen hc.2),
            List.getElem?_eq_none (Nat.not_lt.mp hlen)]
      · rw [if_neg hij]
        have : ¬(j ∈ i :: idxs ∧ j < buf.length) := by
          intro hc
          rcases List.mem_cons.mp hc.1 with he | hm
          · exact hij he.symm
          · exact hmem ⟨hm, hc.2⟩
        rw [if_neg this]

/-- Running the tasks chunk by chunk is running them all in sequence. -/
theorem runSchedule_flatten (f : Nat → FloatV) (sched : List (List Nat)) :
    ∀ buf : List (Option FloatV),
      sched.foldl (runTasks f) buf = runTasks f buf sched.flatten := by
  induction sched with
  | nil => intro buf; rfl
  | cons c cs ih =>
    intro buf
    show cs.foldl (runTasks f) (runTasks f buf c) = _
    rw [ih, List.flatten_cons]
    unfold runTasks
    rw [List.foldl_append]

/-- Any schedule covering the whole output index space assembles exactly
the sequential cell map, regardless of how the work is chunked or
ordered. -/
theorem runSchedule_eq (n : Nat) (f : Nat → FloatV)
    (sched : List (List Nat)) (hcov : coversRange n sched) :
    runSchedule n f sched = (List.range n).map (fun j => some (f j)) := by
  unfold runSchedule
  rw [runSchedule_flatten]
  apply List.ext_getElem?
  intro j
  rw [runTasks_getElem, List.length_replicate]
  by_cases hj : j < n
  · rw [if_pos ⟨hcov j hj, hj⟩, List.getElem?_map, List.getElem?_range hj]
    rfl
  · rw [if_neg (fun h => hj h.2),
      List.getElem?_eq_none (by simpa using Nat.not_lt.mp hj),
      List.getElem?_eq_none
        (by rw [List.length_map, List.length_range]; exact Nat.not_lt.mp hj)]

/-- C9: the mean axis-fold is deterministic in the thread schedule.  For
every input array and axis, running the per-output-cell tasks under any
two schedules that cover the output index space — for example the single
chunk a 1-thread run uses and the many chunks an N-thread run uses —
assembles the same buffer, and that buffer is exactly the cell data of
the array `parallel_mean_axis` returns. -/
theorem claim9_schedule_determinism (a : ArrayD) (axis : Nat)
    (s1 s2 : List (List Nat)) (hwf : a.wf)
    (h1 : coversRange ((a.shape.eraseIdx axis).prod) s1)
    (h2 : coversRange ((a.shape.eraseIdx axis).prod) s2) :
    ∃ res, parallel_mean_axis a axis = .ok res ∧
      runSchedule ((a.shape.eraseIdx axis).prod) (meanCellF a axis) s1
        = res.data.map some ∧
      runSchedule ((a.shape.eraseIdx axis).prod) (meanCellF a axis) s2
        = res.data.map some := by
  have hm : (a.data.map f64FromF32).length = a.shape.prod := by
    rw [List.length_map]; exact hwf
  refine ⟨⟨a.shape.eraseIdx axis,
    (List.range ((a.shape.eraseIdx axis).prod)).map (meanCellF a axis)⟩,
    ?_, ?_, ?_⟩
  · simp only [parallel_mean_axis, hm, if_true, from_shape_vec,
      List.length_map, List.length_range]
  · rw [runSchedule_eq _ _ _ h1, List.map_map]
    rfl
  · rw [runSchedule_eq _ _ _ h2, List.map_map]
    rfl

/-- Witness for `claim9_schedule_determinism`: a 1-chunk and a 2-chunk
schedule on a concrete array. -/
theorem claim9_witness :
    (⟨[2], [.finite 1, .finite 2]⟩ : ArrayD).wf ∧
    coversRange ((([2] : List Nat).eraseIdx 0).prod) [[0]] ∧
    coversRange ((([2] : List Nat).eraseIdx 0).prod) [[], [0]] ∧
    ∃ res,
      parallel_mean_axis ⟨[2], [.finite 1, .finite 2]⟩ 0 = .ok res ∧
      runSchedule ((([2] : List Nat).eraseIdx 0).prod)
          (meanCellF ⟨[2], [.finite 1, .finite 2]⟩ 0) [[0]]
        = res.data.map some ∧
      runSchedule ((([2] : List Nat).eraseIdx 0).prod)
          (meanCellF ⟨[2], [.finite 1, .finite 2]⟩ 0) [[], [0]]
        = res.data.map some :=
  ⟨by decide, by decide, by decide,
    claim9_schedule_determinism ⟨[2], [.finite 1, .finite 2]⟩ 0 [[0]]
      [[], [0]] (by decide) (by decide) (by decide)⟩

/-- A successful range build yields one range per dimension. -/
theorem buildSliceRanges_length (spec : SliceSpec) :
    ∀ (dims : List (String × Nat)) (dimIdx : Nat)
      (rs : List (Nat × Nat)),
      buildSliceRanges spec dims dimIdx = .ok rs →
      rs.length = dims.length := by
  intro dims
  induction dims with
  | nil =>
    intro dimIdx rs h
    injection h with h'
    subst h'
    rfl
  | cons d dims ih =>
    intro dimIdx rs h
    simp only [buildSliceRanges] at h
    repeat' split at h
    all_goals
      first
        | exact Except.noConfusion h
        | (injection h with h'
           subst h'
           rw [List.length_cons, List.length_cons]
           exact congrArg Nat.succ (ih _ _ (by assumption)))

/-- C10 counterexample: a slice request on a 5-dimensional variable whose
first-axis range is out of bounds fails with an `InvalidSlice` range
message, not with the "Unsupported number of dimensions" message the
claim states for every such request. -/
theorem claim10_counterexample :
    extract_slice
        ⟨[⟨"v", [("d0", 2), ("d1", 2), ("d2", 2), ("d3", 2), ("d4", 2)],
          List.replicate 32 (.finite 0)⟩]⟩
        ⟨"v", [⟨"__first_dim__", 0, 99⟩]⟩
      = .error (.InvalidSlice
          "Invalid slice range for dimension \x27d0\x27: 0:99 (dimension size: 2)") ∧
    ("Invalid slice range for dimension \x27d0\x27: 0:99 (dimension size: 2)"
      : String) ≠ "Unsupported number of dimensions for slicing (max 4)" :=
  ⟨by decide, by decide⟩

/-- C10 amended: a slice request on a variable with more than 4
dimensions whose per-dimension ranges validate fails with `InvalidSlice`
and the message "Unsupported number of dimensions for slicing (max 4)";
a request with an out-of-range or empty range fails earlier with an
`InvalidSlice` range-error message instead.  In neither case is any data
extracted. -/
theorem claim10_amended (file : NCFile) (spec : SliceSpec) (var : NCVar)
    (rs : List (Nat × Nat)) (hv : file.findVar spec.varName = some var)
    (hd : 4 < var.dims.length)
    (hr : buildSliceRanges spec var.dims 0 = .ok rs) :
    extract_slice file spec
      = .error (.InvalidSlice
          "Unsupported number of dimensions for slicing (max 4)") := by
  have hlen : rs.length = var.dims.length :=
    buildSliceRanges_length spec var.dims 0 rs hr
  unfold extract_slice
  rw [hv]
  simp only [hr]
  rw [if_neg (fun hc => by omega)]

/-- Witness for `claim10_amended`: a valid in-range request on a concrete
5-dimensional variable. -/
theorem claim10_witness :
    NCFile.findVar
        ⟨[⟨"v", [("d0", 2), ("d1", 2), ("d2", 2), ("d3", 2), ("d4", 2)],
          List.replicate 32 (.finite 0)⟩]⟩ "v"
      = some ⟨"v", [("d0", 2), ("d1", 2), ("d2", 2), ("d3", 2), ("d4", 2)],
          List.replicate 32 (.finite 0)⟩ ∧
    4 < ([("d0", 2), ("d1", 2), ("d2", 2), ("d3", 2), ("d4", 2)]
        : List (String × Nat)).length ∧
    buildSliceRanges ⟨"v", [⟨"__first_dim__", 0, 1⟩]⟩
        [("d0", 2), ("d1", 2), ("d2", 2), ("d3", 2), ("d4", 2)] 0
      = .ok [(0, 1), (0, 2), (0, 2), (0, 2), (0, 2)] ∧
    extract_slice
        ⟨[⟨"v", [("d0", 2), ("d1", 2), ("d2", 2), ("d3", 2), ("d4", 2)],
          List.replicate 32 (.finite 0)⟩]⟩
        ⟨"v", [⟨"__first_dim__", 0, 1⟩]⟩
      = .error (.InvalidSlice
          "Unsupported number of dimensions for slicing (max 4)") :=
  ⟨by decide, by decide, by decide,
    claim10_amended _ ⟨"v", [⟨"__first_dim__", 0, 1⟩]⟩
      ⟨"v", [("d0", 2), ("d1", 2), ("d2", 2), ("d3", 2), ("d4", 2)],
        List.replicate 32 (.finite 0)⟩
      [(0, 1), (0, 2), (0, 2), (0, 2), (0, 2)]
      (by decide) (by decide) (by decide)⟩

end RuNeVis
